import Mathlib

/-
  Verification development for the cyanfs repository.

  Shallow embedding of:
  - src/block_cache.rs : Block, BlockCache (write-back LRU over a block device)
  - src/inode.rs       : Attrs (extent I/O read_at / write_at), Inode, InodeCache
  - src/lib.rs         : SFS dispatcher handlers (rmdir, mkdir, create, symlink,
                          readdir, release, releasedir) and their helpers.

  Machine integers are modelled as Nat; u64 wrapping subtraction (release-build
  semantics of Rust arithmetic overflow) is made explicit as arithmetic mod 2^64.
  Rust panics (slice-bound violations, unwrap of errors) are modelled as Option
  results (none = panic).  Device and KV I/O errors come from the environment,
  not from the program logic under study; the code under inspection unwraps
  them, so reads/writes against the backing stores are modelled as total maps.
-/

namespace CF

/-- Pointwise update of a map modelled as a function. -/
def fupd {α : Type} (f : Nat → α) (k : Nat) (v : α) : Nat → α :=
  fun n => if n = k then v else f n

abbrev Bytes := List Nat

/-- Association-list lookup (front of the list = most recently used entry). -/
def alookup {β : Type} : List (Nat × β) → Nat → Option β
  | [], _ => none
  | (k, v) :: rest, key => if k = key then some v else alookup rest key

/-- Remove the entry with the given key (first occurrence). -/
def aerase {β : Type} : List (Nat × β) → Nat → List (Nat × β)
  | [], _ => []
  | (k, v) :: rest, key => if k = key then rest else (k, v) :: aerase rest key

/-- Move the entry with the given key to the front (LRU promotion on access). -/
def apromote {β : Type} (c : List (Nat × β)) (key : Nat) : List (Nat × β) :=
  match alookup c key with
  | none => c
  | some v => (key, v) :: aerase c key

/-- One cached block: src/block_cache.rs, struct Block (the device handle is the
shared device map threaded through the state). -/
structure Block where
  buffer : Bytes
  block_id : Nat
  dirty : Bool
deriving DecidableEq, Repr

/-- Trace of operations against the cache API and against the underlying device. -/
inductive DevOp where
  | devRead (id : Nat)
  | devWrite (id : Nat)
  | cacheRead (id : Nat)
  | cacheWrite (id : Nat)
deriving DecidableEq, Repr

/-- State of BlockCache: the backing device (block id to content) plus the LRU
list of cached blocks, most recently used first.  The capacity CACHE_SIZE is
passed as a parameter to the operations. -/
structure BCState where
  dev : Nat → Bytes
  cache : List (Nat × Block)

/-- impl Drop for Block (src/block_cache.rs lines 15-26): when a cached block is
dropped, a dirty block is written back to the device; a clean one is discarded. -/
def dropBlock (dev : Nat → Bytes) (b : Block) : (Nat → Bytes) × List DevOp :=
  if b.dirty then (fupd dev b.block_id b.buffer, [DevOp.devWrite b.block_id])
  else (dev, [])

/-- lru::LruCache::put for a key that is not present: if the cache is at
capacity the least recently used entry is evicted and dropped (running the
Block drop hook), then the new entry is inserted most-recently-used. -/
def lruPut (cap : Nat) (st : BCState) (id : Nat) (b : Block) : BCState × List DevOp :=
  if st.cache.length < cap then
    ({ dev := st.dev, cache := (id, b) :: st.cache }, [])
  else
    match st.cache.getLast? with
    | none => ({ dev := st.dev, cache := [(id, b)] }, [])
    | some last =>
      let p := dropBlock st.dev last.2
      ({ dev := p.1, cache := (id, b) :: st.cache.dropLast }, p.2)

/-- BlockCache::read_block (src/block_cache.rs lines 40-56): on hit, the cached
buffer is returned (the access promotes the entry); on miss, the device is
read and the block is inserted clean. -/
def read_block (cap : Nat) (st : BCState) (id : Nat) : Bytes × BCState × List DevOp :=
  match alookup st.cache id with
  | some b =>
    (b.buffer, { dev := st.dev, cache := apromote st.cache id }, [DevOp.cacheRead id])
  | none =>
    let data := st.dev id
    let p := lruPut cap st id { buffer := data, block_id := id, dirty := false }
    (data, p.1, [DevOp.cacheRead id, DevOp.devRead id] ++ p.2)

/-- BlockCache::write_block (src/block_cache.rs lines 57-72): on hit, the
cached buffer is overwritten in place (get_mut promotes the entry; the dirty
flag is left as it was); on miss, the provided content is inserted as a dirty
entry without reading the device. -/
def write_block (cap : Nat) (st : BCState) (id : Nat) (buf : Bytes) : BCState × List DevOp :=
  match alookup st.cache id with
  | some b =>
    ({ dev := st.dev, cache := (id, { b with buffer := buf }) :: aerase st.cache id },
      [DevOp.cacheWrite id])
  | none =>
    let p := lruPut cap st id { buffer := buf, block_id := id, dirty := true }
    (p.1, DevOp.cacheWrite id :: p.2)

/-- FileType from src/inode.rs. -/
inductive FileTypeI where
  | regularFile
  | directory
  | symlink
deriving DecidableEq, Repr

/-- DirEntry from src/inode.rs (names kept as raw byte lists). -/
structure DirEntryI where
  ino : Nat
  kind : FileTypeI
deriving DecidableEq, Repr

/-- Attrs from src/inode.rs lines 130-148.  SystemTime fields are modelled as
Nat timestamps; entry names and the symlink target are byte lists. -/
structure Attrs where
  ino : Nat
  size : Nat
  extents : List (Nat × Nat)
  atime : Nat
  mtime : Nat
  ctime : Nat
  crtime : Nat
  kind : FileTypeI
  perm : Nat
  nlink : Nat
  uid : Nat
  gid : Nat
  rdev : Nat
  flags : Nat
  entries : List (Bytes × DirEntryI)
  link : Bytes
deriving DecidableEq, Repr

/-- Concatenation of the extent ranges: the file's logical block k is the k-th
element of this list (extents.iter().flat_map(clone)). -/
def logical_blocks (extents : List (Nat × Nat)) : List Nat :=
  (extents.map (fun r => List.range' r.1 (r.2 - r.1))).flatten

def U64 : Nat := 2 ^ 64

/-- Wrapping u64 subtraction (release-build semantics of a - b on u64). -/
def wsub64 (a b : Nat) : Nat := (a % U64 + (U64 - b % U64)) % U64

/-- Read a list of blocks through the cache, concatenating their contents
(the staging loop of Attrs::read_at). -/
def readLoop (cap : Nat) (st : BCState) : List Nat → Bytes × BCState × List DevOp
  | [] => ([], st, [])
  | b :: rest =>
    let p := read_block cap st b
    let q := readLoop cap p.2.1 rest
    (p.1 ++ q.1, q.2.1, p.2.2 ++ q.2.2)

/-- Attrs::read_at (src/inode.rs lines 51-75).  Returns the delivered bytes,
the returned length, the new cache state and the operation trace; none models
a panic (slice indexing out of range).  The expression (self.size - offset)
is u64 subtraction, hence the wrapping wsub64. -/
def read_at (bs cap : Nat) (a : Attrs) (st : BCState) (len offset : Nat) :
    Option (Bytes × Nat × BCState × List DevOp) :=
  let bgn := offset / bs
  let stop := (offset + len + (bs - 1)) / bs
  let blocks := ((logical_blocks a.extents).drop bgn).take (stop - bgn)
  let p := readLoop cap st blocks
  let size := min (wsub64 a.size offset) len
  let off := offset % bs
  if off + size ≤ p.1.length then
    some ((p.1.drop off).take size, size, p.2.1, p.2.2)
  else
    none

/-- The read-modify-write staging loop of Attrs::write_at: iterates pairs of
(global index i, block id); a block is read through the cache only when
(i = bgn and off is non-zero) or (i = stop and eoff is non-zero); otherwise a
zero-filled buffer is appended.  Note stop is the half-open end bound, so the
second disjunct never fires for iterated indices i < stop. -/
def rmwLoop (bs cap bgn stop off eoff : Nat) (st : BCState) :
    List (Nat × Nat) → Bytes × BCState × List DevOp
  | [] => ([], st, [])
  | (i, blk) :: rest =>
    if (i = bgn ∧ off ≠ 0) ∨ (i = stop ∧ eoff ≠ 0) then
      let p := read_block cap st blk
      let q := rmwLoop bs cap bgn stop off eoff p.2.1 rest
      (p.1 ++ q.1, q.2.1, p.2.2 ++ q.2.2)
    else
      let q := rmwLoop bs cap bgn stop off eoff st rest
      (List.replicate bs 0 ++ q.1, q.2.1, q.2.2)

/-- The write-back loop of Attrs::write_at: writes chunk j of the staging
buffer to the j-th affected block.  try_into on a chunk whose length is not
BLOCK_SIZE panics (none). -/
def writeLoop (bs cap : Nat) (st : BCState) (data : Bytes) :
    List (Nat × Nat) → Option (BCState × List DevOp)
  | [] => some (st, [])
  | (j, blk) :: rest =>
    let chunk := (data.drop (j * bs)).take bs
    if chunk.length = bs then
      let p := write_block cap st blk chunk
      match writeLoop bs cap p.1 data rest with
      | some q => some (q.1, p.2 ++ q.2)
      | none => none
    else
      none

/-- Attrs::write_at (src/inode.rs lines 76-121).  Returns the reported length
(buf.len()), the new cache state and the operation trace; none models a panic
(the staging-buffer copy_from_slice out of range, or a short chunk). -/
def write_at (bs cap : Nat) (a : Attrs) (st : BCState) (buf : Bytes) (offset : Nat) :
    Option (Nat × BCState × List DevOp) :=
  let bgn := offset / bs
  let stop := (offset + buf.length + (bs - 1)) / bs
  let off := offset % bs
  let eoff := (offset + buf.length) % bs
  let lb := logical_blocks a.extents
  let pairs := (lb.enum.drop bgn).take (stop - bgn)
  let p := rmwLoop bs cap bgn stop off eoff st pairs
  if off + buf.length ≤ p.1.length then
    let data := (p.1.take off ++ buf) ++ p.1.drop (off + buf.length)
    match writeLoop bs cap p.2.1 data (((lb.drop bgn).take (stop - bgn)).enum) with
    | some q => some (buf.length, q.1, p.2.2 ++ q.2)
    | none => none
  else
    none

/-- Value space of the external KV store, keyed by inode number (the 8-byte
little-endian key encoding is injective, so keys are modelled as the inode
number itself).  The C++ KVStore and bincode are external collaborators:
absentK stands for the empty string KVStore::get returns for a missing key,
recK a for the (injective, never empty) bincode serialization of a record,
corruptK for a non-empty byte string that fails to deserialize. -/
inductive KVVal where
  | absentK
  | recK (a : Attrs)
  | corruptK
deriving DecidableEq, Repr

/-- One operation against the KV store. -/
inductive KVOp where
  | putK (ino : Nat) (a : Attrs)
  | removeK (ino : Nat)
deriving DecidableEq, Repr

def kvApply (db : Nat → KVVal) : KVOp → Nat → KVVal
  | KVOp.putK i a => fupd db i (KVVal.recK a)
  | KVOp.removeK i => fupd db i KVVal.absentK

def kvRun (db : Nat → KVVal) (ops : List KVOp) : Nat → KVVal :=
  ops.foldl kvApply db

/-- A cached inode: src/inode.rs struct Inode (the shared db and dev handles
are threaded through the state instead of stored per entry). -/
structure InodeE where
  attrs : Attrs
  dirty : Bool
deriving DecidableEq, Repr

/-- Inode::flush (src/inode.rs lines 28-37): put the serialized record when
nlink > 0, otherwise remove the key. -/
def InodeE.flushOps (i : InodeE) : List KVOp :=
  if i.attrs.nlink > 0 then [KVOp.putK i.attrs.ino i.attrs]
  else [KVOp.removeK i.attrs.ino]

/-- impl Drop for Inode (src/inode.rs lines 39-45): a dirty inode is flushed
when dropped; a clean one performs no KV operation. -/
def InodeE.dropOps (i : InodeE) : List KVOp :=
  if i.dirty then i.flushOps else []

/-- State of InodeCache: the KV store plus the LRU list, most recent first. -/
structure ICState where
  db : Nat → KVVal
  cache : List (Nat × InodeE)
  cap : Nat

/-- lru::LruCache::put as used by InodeCache: replacing an existing key drops
the old entry (the caller discards the returned value); inserting at capacity
evicts and drops the least recently used entry.  Dropping runs the Inode drop
hook against the KV store. -/
def icPut (st : ICState) (ino : Nat) (i : InodeE) : ICState × List KVOp :=
  match alookup st.cache ino with
  | some old =>
    ({ st with db := kvRun st.db old.dropOps, cache := (ino, i) :: aerase st.cache ino },
      old.dropOps)
  | none =>
    if st.cache.length < st.cap then
      ({ st with cache := (ino, i) :: st.cache }, [])
    else
      match st.cache.getLast? with
      | none => ({ st with cache := [(ino, i)] }, [])
      | some last =>
        let ops := last.2.dropOps
        ({ st with db := kvRun st.db ops, cache := (ino, i) :: st.cache.dropLast }, ops)

def ENOENT : Nat := 2
def EIO : Nat := 5

/-- InodeCache::read (src/inode.rs lines 245-275): on hit, returns f applied
to the cached attrs (the access promotes the entry); on miss, fetches from the
KV store: the empty string means absent (ENOENT), a value that fails to
deserialize is EIO, and a valid record is inserted clean after computing f. -/
def icRead {V : Type} (st : ICState) (ino : Nat) (f : Attrs → V) :
    Except Nat V × ICState × List KVOp :=
  match alookup st.cache ino with
  | some i =>
    (Except.ok (f i.attrs), { st with cache := apromote st.cache ino }, [])
  | none =>
    match st.db ino with
    | KVVal.absentK => (Except.error ENOENT, st, [])
    | KVVal.corruptK => (Except.error EIO, st, [])
    | KVVal.recK a =>
      let v := f a
      let p := icPut st ino { attrs := a, dirty := false }
      (Except.ok v, p.1, p.2)

/-- InodeCache::flush_inode (src/inode.rs lines 315-317): pops the entry,
dropping it (which flushes it to the KV store when dirty). -/
def flush_inode (st : ICState) (ino : Nat) : ICState × List KVOp :=
  match alookup st.cache ino with
  | none => (st, [])
  | some i =>
    ({ st with db := kvRun st.db i.dropOps, cache := aerase st.cache ino }, i.dropOps)

namespace Sfs

def EACCES : Nat := 13
def EEXIST : Nat := 17
def EINVAL : Nat := 22
def ENOTEMPTY : Nat := 39
def S_ISUID : Nat := 0o4000
def S_ISGID : Nat := 0o2000
def S_ISVTX : Nat := 0o1000
def S_IFMT : Nat := 0o170000
def S_IFREG : Nat := 0o100000
def S_IFLNK : Nat := 0o120000
def S_IFDIR : Nat := 0o040000
def W_OK : Nat := 2
def FUSE_ROOT_ID : Nat := 1
def BLOCK_SIZE : Nat := 512
def FILE_HANDLE_READ_BIT : Nat := 2 ^ 63
def FILE_HANDLE_WRITE_BIT : Nat := 2 ^ 62

/-- FileKind from src/lib.rs. -/
inductive FileKind where
  | file
  | directory
  | symlink
deriving DecidableEq, Repr

/-- InodeAttributes from src/lib.rs lines 65-77. -/
structure InodeAttributes where
  inode : Nat
  open_file_handles : Nat
  size : Nat
  kind : FileKind
  mode : Nat
  hardlinks : Nat
  uid : Nat
  gid : Nat
  extents : List Nat
deriving DecidableEq, Repr

abbrev Name := List Nat

/-- DirectoryDescriptor = BTreeMap of Vec u8 to (Inode, FileKind), modelled as
an association list kept sorted in ascending byte-lexicographic key order. -/
abbrev Dir := List (Name × (Nat × FileKind))

/-- Strict byte-lexicographic order on entry names (the Ord instance of
Vec of u8): a strict prefix sorts before its extensions. -/
def bytesLt : Name → Name → Bool
  | [], [] => false
  | [], _ :: _ => true
  | _ :: _, [] => false
  | a :: xs, b :: ys => if a < b then true else if b < a then false else bytesLt xs ys

/-- BTreeMap::get. -/
def dirGet (d : Dir) (k : Name) : Option (Nat × FileKind) :=
  match d with
  | [] => none
  | (k0, v0) :: rest => if k0 = k then some v0 else dirGet rest k

/-- BTreeMap::insert, keeping the list sorted. -/
def dirInsert (d : Dir) (k : Name) (v : Nat × FileKind) : Dir :=
  match d with
  | [] => [(k, v)]
  | (k0, v0) :: rest =>
    if bytesLt k k0 then (k, v) :: (k0, v0) :: rest
    else if k = k0 then (k, v) :: rest
    else (k0, v0) :: dirInsert rest k v

/-- BTreeMap::remove. -/
def dirRemove (d : Dir) (k : Name) : Dir :=
  match d with
  | [] => []
  | (k0, v0) :: rest => if k0 = k then rest else (k0, v0) :: dirRemove rest k

/-- Content of a per-inode content file under data_dir/contents: a serialized
DirectoryDescriptor for directories, raw bytes for symlink targets and file
data. -/
inductive Content where
  | dirC (d : Dir)
  | fileC (b : Bytes)
deriving DecidableEq, Repr

/-- State of SFS (src/lib.rs): the rocksdb column keyed by inode number (the
superblock key is modelled as its own field), the contents directory, and the
next_file_handle counter.  data_dir and direct_io do not affect the modelled
handlers. -/
structure FS where
  db : Nat → Option InodeAttributes
  superblock : Option Nat
  contents : Nat → Option Content
  next_file_handle : Nat

/-- check_access from src/lib.rs lines 1300-1333, on the masks the modelled
handlers pass (F_OK = 0, X_OK = 1, W_OK = 2, R_OK = 4). -/
def check_access (file_uid file_gid file_mode uid gid mask : Nat) : Bool :=
  if mask = 0 then true
  else if uid = 0 then
    let m0 := mask &&& 1
    let m1 := m0 - (m0 &&& (file_mode >>> 6))
    let m2 := m1 - (m1 &&& (file_mode >>> 3))
    let m3 := m2 - (m2 &&& file_mode)
    m3 = 0
  else if uid = file_uid then
    mask - (mask &&& (file_mode >>> 6)) = 0
  else if gid = file_gid then
    mask - (mask &&& (file_mode >>> 3)) = 0
  else
    mask - (mask &&& file_mode) = 0

/-- Result of a handler step: ok, an errno reply, or a Rust panic (unwrap of
an error / failed assertion). -/
inductive R (α : Type) where
  | ok (a : α)
  | err (e : Nat)
  | crash
deriving DecidableEq, Repr

def get_inode (s : FS) (ino : Nat) : Option InodeAttributes := s.db ino

def write_inode (s : FS) (a : InodeAttributes) : FS :=
  { s with db := fupd s.db a.inode (some a) }

/-- get_directory_content (src/lib.rs lines 202-211): a missing content file
is ENOENT; deserializing non-directory bytes panics (unwrap). -/
def get_directory_content (s : FS) (ino : Nat) : R Dir :=
  match s.contents ino with
  | none => R.err ENOENT
  | some (Content.dirC d) => R.ok d
  | some (Content.fileC _) => R.crash

def write_directory_content (s : FS) (ino : Nat) (d : Dir) : FS :=
  { s with contents := fupd s.contents ino (some (Content.dirC d)) }

/-- lookup_name (src/lib.rs lines 255-262). -/
def lookup_name (s : FS) (parent : Nat) (name : Name) : R InodeAttributes :=
  match get_directory_content s parent with
  | R.crash => R.crash
  | R.err e => R.err e
  | R.ok entries =>
    match dirGet entries name with
    | some iv =>
      match s.db iv.1 with
      | some a => R.ok a
      | none => R.err ENOENT
    | none => R.err ENOENT

/-- gc_inode (src/lib.rs lines 242-253): deletes the KV row and removes the
content file when both link count and open handle count are zero.
fs::remove_file on a missing content file panics (unwrap). -/
def gc_inode (s : FS) (a : InodeAttributes) : R (FS × Bool) :=
  if a.hardlinks = 0 ∧ a.open_file_handles = 0 then
    match s.contents a.inode with
    | none => R.crash
    | some _ =>
      let s1 := { s with db := fupd s.db a.inode none }
      R.ok ({ s1 with contents := fupd s1.contents a.inode none }, true)
  else
    R.ok (s, false)

/-- allocate_next_inode (src/lib.rs lines 164-174): the superblock key holds
the last allocated number (FUSE_ROOT_ID when absent); it is incremented,
persisted, and returned. -/
def allocate_next_inode (s : FS) : Nat × FS :=
  let current := s.superblock.getD FUSE_ROOT_ID
  (current + 1, { s with superblock := some (current + 1) })

/-- allocate_next_file_handle (src/lib.rs lines 176-186); the assert that the
raw counter stays below both permission bits panics when violated. -/
def allocate_next_file_handle (s : FS) (read write : Bool) : R (Nat × FS) :=
  let fh := s.next_file_handle
  let s1 := { s with next_file_handle := fh + 1 }
  if fh < FILE_HANDLE_WRITE_BIT ∧ fh < FILE_HANDLE_READ_BIT then
    let fh1 := if read then fh ||| FILE_HANDLE_READ_BIT else fh
    let fh2 := if write then fh1 ||| FILE_HANDLE_WRITE_BIT else fh1
    R.ok (fh2, s1)
  else
    R.crash

/-- creation_mode (src/lib.rs lines 137-143); suid_support is forced to false
by the constructor, so SUID and SGID are always masked; the cast to u16
truncates. -/
def creation_mode (mode : Nat) : Nat :=
  (mode - (mode &&& (S_ISUID ||| S_ISGID))) % 2 ^ 16

/-- creation_gid (src/lib.rs lines 57-63). -/
def creation_gid (parent : InodeAttributes) (gid : Nat) : Nat :=
  if parent.mode &&& S_ISGID ≠ 0 then parent.gid else gid

/-- as_file_kind (src/lib.rs lines 1335-1347); other kinds hit
unimplemented, a panic. -/
def as_file_kind (mode : Nat) : Option FileKind :=
  let m := mode &&& S_IFMT
  if m = S_IFREG then some FileKind.file
  else if m = S_IFLNK then some FileKind.symlink
  else if m = S_IFDIR then some FileKind.directory
  else none

/-- SFS::rmdir (src/lib.rs lines 624-679).  Replies on the result side; the
returned state is the state at the moment of the reply. -/
def rmdir (s : FS) (uid gid parent : Nat) (name : Name) : FS × R Unit :=
  match lookup_name s parent name with
  | R.crash => (s, R.crash)
  | R.err e => (s, R.err e)
  | R.ok attrs =>
    match get_inode s parent with
    | none => (s, R.err ENOENT)
    | some parent_attrs =>
      match get_directory_content s attrs.inode with
      | R.err _ => (s, R.crash)
      | R.crash => (s, R.crash)
      | R.ok d =>
        if d.length > 2 then (s, R.err ENOTEMPTY)
        else if ¬ check_access parent_attrs.uid parent_attrs.gid parent_attrs.mode
            uid gid W_OK then (s, R.err EACCES)
        else if parent_attrs.mode &&& S_ISVTX ≠ 0 ∧ uid ≠ 0 ∧ uid ≠ parent_attrs.uid
            ∧ uid ≠ attrs.uid then (s, R.err EACCES)
        else
          let s1 := write_inode s parent_attrs
          let attrs2 := { attrs with hardlinks := 0 }
          let s2 := write_inode s1 attrs2
          match gc_inode s2 attrs2 with
          | R.crash => (s2, R.crash)
          | R.err _ => (s2, R.crash)
          | R.ok p =>
            match get_directory_content p.1 parent with
            | R.ok entries =>
              (write_directory_content p.1 parent (dirRemove entries name), R.ok ())
            | R.err _ => (p.1, R.crash)
            | R.crash => (p.1, R.crash)

/-- SFS::mkdir (src/lib.rs lines 503-569). -/
def mkdir (s : FS) (uid gid parent : Nat) (name : Name) (mode : Nat) :
    FS × R InodeAttributes :=
  match lookup_name s parent name with
  | R.crash => (s, R.crash)
  | R.ok _ => (s, R.err EEXIST)
  | R.err _ =>
    match get_inode s parent with
    | none => (s, R.err ENOENT)
    | some parent_attrs =>
      if ¬ check_access parent_attrs.uid parent_attrs.gid parent_attrs.mode
          uid gid W_OK then (s, R.err EACCES)
      else
        let s1 := write_inode s parent_attrs
        let mode1 := if uid ≠ 0 then mode - (mode &&& (S_ISUID ||| S_ISGID)) else mode
        let mode2 := if parent_attrs.mode &&& S_ISGID ≠ 0 then mode1 ||| S_ISGID else mode1
        let p := allocate_next_inode s1
        let inode := p.1
        let attrs : InodeAttributes :=
          { inode := inode, open_file_handles := 0, size := BLOCK_SIZE,
            kind := FileKind.directory, mode := creation_mode mode2, hardlinks := 2,
            uid := uid, gid := creation_gid parent_attrs gid, extents := [] }
        let s2 := write_inode p.2 attrs
        let selfDir := dirInsert (dirInsert [] [46] (inode, FileKind.directory))
          [46, 46] (parent, FileKind.directory)
        let s3 := write_directory_content s2 inode selfDir
        match get_directory_content s3 parent with
        | R.ok entries =>
          let s4 := write_directory_content s3 parent
            (dirInsert entries name (inode, FileKind.directory))
          (s4, R.ok attrs)
        | R.err _ => (s3, R.crash)
        | R.crash => (s3, R.crash)

/-- insert_link (src/lib.rs lines 264-295). -/
def insert_link (s : FS) (uid gid parent : Nat) (name : Name) (inode : Nat)
    (kind : FileKind) : FS × R Unit :=
  match lookup_name s parent name with
  | R.crash => (s, R.crash)
  | R.ok _ => (s, R.err EEXIST)
  | R.err _ =>
    match get_inode s parent with
    | none => (s, R.err ENOENT)
    | some parent_attrs =>
      if ¬ check_access parent_attrs.uid parent_attrs.gid parent_attrs.mode
          uid gid W_OK then (s, R.err EACCES)
      else
        let s1 := write_inode s parent_attrs
        match get_directory_content s1 parent with
        | R.ok entries =>
          (write_directory_content s1 parent (dirInsert entries name (inode, kind)),
            R.ok ())
        | R.err _ => (s1, R.crash)
        | R.crash => (s1, R.crash)

/-- SFS::symlink (src/lib.rs lines 681-739).  The link target is a byte list;
on success the content file holds the target bytes. -/
def symlink (s : FS) (uid gid parent : Nat) (name : Name) (link : Bytes) :
    FS × R InodeAttributes :=
  match get_inode s parent with
  | none => (s, R.err ENOENT)
  | some parent_attrs =>
    if ¬ check_access parent_attrs.uid parent_attrs.gid parent_attrs.mode
        uid gid W_OK then (s, R.err EACCES)
    else
      let s1 := write_inode s parent_attrs
      let p := allocate_next_inode s1
      let inode := p.1
      let attrs : InodeAttributes :=
        { inode := inode, open_file_handles := 0, size := link.length,
          kind := FileKind.symlink, mode := 0o777, hardlinks := 1,
          uid := uid, gid := creation_gid parent_attrs gid, extents := [] }
      let q := insert_link p.2 uid gid parent name inode FileKind.symlink
      match q.2 with
      | R.crash => (q.1, R.crash)
      | R.err e => (q.1, R.err e)
      | R.ok _ =>
        let s3 := write_inode q.1 attrs
        let s4 := { s3 with contents := fupd s3.contents inode (some (Content.fileC link)) }
        (s4, R.ok attrs)

/-- SFS::create (src/lib.rs lines 1211-1296).  flags selects the access mode
(O_ACCMODE = 3); the reply carries the new attributes and the file handle. -/
def create (s : FS) (uid gid parent : Nat) (name : Name) (mode : Nat) (flags : Nat) :
    FS × R (InodeAttributes × Nat) :=
  match lookup_name s parent name with
  | R.crash => (s, R.crash)
  | R.ok _ => (s, R.err EEXIST)
  | R.err _ =>
    let acc := flags &&& 3
    if acc ≥ 3 then (s, R.err EINVAL)
    else
      let readF := acc = 0 ∨ acc = 2
      let writeF := acc = 1 ∨ acc = 2
      match get_inode s parent with
      | none => (s, R.err ENOENT)
      | some parent_attrs =>
        if ¬ check_access parent_attrs.uid parent_attrs.gid parent_attrs.mode
            uid gid W_OK then (s, R.err EACCES)
        else
          let s1 := write_inode s parent_attrs
          let mode1 := if uid ≠ 0 then mode - (mode &&& (S_ISUID ||| S_ISGID)) else mode
          let p := allocate_next_inode s1
          let inode := p.1
          match as_file_kind mode1 with
          | none => (p.2, R.crash)
          | some knd =>
            let attrs : InodeAttributes :=
              { inode := inode, open_file_handles := 1, size := 0,
                kind := knd, mode := creation_mode mode1, hardlinks := 1,
                uid := uid, gid := creation_gid parent_attrs gid, extents := [] }
            let s2 := write_inode p.2 attrs
            let s3 := { s2 with contents := fupd s2.contents inode (some (Content.fileC [])) }
            let s4 :=
              if as_file_kind mode1 = some FileKind.directory then
                write_directory_content s3 inode
                  (dirInsert (dirInsert [] [46] (inode, FileKind.directory))
                    [46, 46] (parent, FileKind.directory))
              else s3
            match get_directory_content s4 parent with
            | R.ok entries =>
              let s5 := write_directory_content s4 parent
                (dirInsert entries name (inode, attrs.kind))
              match allocate_next_file_handle s5 readF writeF with
              | R.ok q => (q.2, R.ok (attrs, q.1))
              | R.err _ => (s5, R.crash)
              | R.crash => (s5, R.crash)
            | R.err _ => (s4, R.crash)
            | R.crash => (s4, R.crash)

/-- The readdir loop (src/lib.rs lines 1153-1166): idx is the enumerate index
over the entries after the skip; an entry is added while the reply buffer has
room for fewer than cap entries, and the loop stops at the first full signal.
Each emitted tuple is (ino, next offset, kind, name). -/
def readdirGo (cap offset : Nat) :
    List (Name × (Nat × FileKind)) → Nat → List (Nat × Nat × FileKind × Name)
  | [], _ => []
  | (nm, iv) :: rest, idx =>
    if idx < cap then (iv.1, offset + idx + 1, iv.2, nm) :: readdirGo cap offset rest (idx + 1)
    else []

/-- SFS::readdir (src/lib.rs lines 1136-1169).  cap is the number of entries
the reply buffer accommodates before reply.add signals full. -/
def readdir (s : FS) (ino offset cap : Nat) : R (List (Nat × Nat × FileKind × Name)) :=
  match get_directory_content s ino with
  | R.crash => R.crash
  | R.err e => R.err e
  | R.ok entries => R.ok (readdirGo cap offset (entries.drop offset) 0)

/-- SFS::release (src/lib.rs lines 1079-1093): the open-handle decrement is
applied to a local copy of the attributes (u64 wrapping) that is never written
back; the handler always replies ok. -/
def release (s : FS) (ino : Nat) : FS × Bool :=
  match get_inode s ino with
  | some attrs =>
    let _local := { attrs with open_file_handles := wsub64 attrs.open_file_handles 1 }
    (s, true)
  | none => (s, true)

/-- SFS::releasedir (src/lib.rs lines 1171-1183): same body as release. -/
def releasedir (s : FS) (ino : Nat) : FS × Bool :=
  match get_inode s ino with
  | some attrs =>
    let _local := { attrs with open_file_handles := wsub64 attrs.open_file_handles 1 }
    (s, true)
  | none => (s, true)

end Sfs

/-- A baseline inode record for concrete scenarios. -/
def attrs0 : Attrs :=
  { ino := 1, size := 0, extents := [], atime := 0, mtime := 0, ctime := 0, crtime := 0,
    kind := FileTypeI.regularFile, perm := 0, nlink := 1, uid := 0, gid := 0, rdev := 0,
    flags := 0, entries := [], link := [] }

/-- C1 scenario: block 0 is cached clean (as after a read miss). -/
def c1HitState : BCState :=
  { dev := fun _ => [7, 7, 7, 7],
    cache := [(0, { buffer := [9, 9, 9, 9], block_id := 0, dirty := false })] }

/-- C1 scenario: empty cache. -/
def c1MissState : BCState := { dev := fun _ => [7, 7, 7, 7], cache := [] }

/-- C2 scenario: a two-block file, BLOCK_SIZE 4. -/
def c2Attrs : Attrs := { attrs0 with size := 8, extents := [(0, 2)] }

def c2State : BCState := { dev := fun _ => [7, 7, 7, 7], cache := [] }

/-- C3 scenario: a two-block file over a device holding stale bytes in block 0,
with block 0 cached clean and a cache capacity of one entry. -/
def c3Attrs : Attrs := { attrs0 with size := 8, extents := [(0, 2)] }

def c3State : BCState :=
  { dev := fun n => if n = 0 then [9, 9, 9, 9] else [8, 8, 8, 8],
    cache := [(0, { buffer := [9, 9, 9, 9], block_id := 0, dirty := false })] }

/-- C4 scenario: a one-block file of size 2 (BLOCK_SIZE 4). -/
def c4Attrs : Attrs := { attrs0 with size := 2, extents := [(0, 1)] }

def c4State : BCState := { dev := fun _ => [7, 7, 7, 7], cache := [] }

/-- C5 witness: a dirty cached inode whose record has link count 0. -/
def c5Inode : InodeE := { attrs := { attrs0 with ino := 7, nlink := 0 }, dirty := true }

def c5Db : Nat → KVVal := fun n => if n = 7 then KVVal.recK { attrs0 with ino := 7 } else KVVal.absentK

/-- C6 witness: inode 3 cached, inode 4 absent from the KV store, inode 5
stored as undecodable bytes, inode 6 stored as a valid record. -/
def c6CachedAttrs : Attrs := { attrs0 with ino := 3, nlink := 2 }

def c6StoredAttrs : Attrs := { attrs0 with ino := 6, nlink := 1 }

def c6State : ICState :=
  { db := fun n =>
      if n = 5 then KVVal.corruptK
      else if n = 6 then KVVal.recK c6StoredAttrs
      else KVVal.absentK,
    cache := [(3, { attrs := c6CachedAttrs, dirty := false })],
    cap := 4 }

namespace Sfs

/-- Root directory record shared by the dispatcher scenarios. -/
def rootAttrs : InodeAttributes :=
  { inode := 1, open_file_handles := 0, size := 0, kind := FileKind.directory,
    mode := 0o777, hardlinks := 2, uid := 0, gid := 0, extents := [] }

/-- C7 scenario: inode 2 is a directory under the root holding one real entry
(inode 3) besides its self and parent links. -/
def c7DirAttrs : InodeAttributes :=
  { inode := 2, open_file_handles := 0, size := 512, kind := FileKind.directory,
    mode := 0o755, hardlinks := 2, uid := 0, gid := 0, extents := [] }

def c7ChildAttrs : InodeAttributes :=
  { inode := 3, open_file_handles := 0, size := 0, kind := FileKind.file,
    mode := 0o644, hardlinks := 1, uid := 0, gid := 0, extents := [] }

/-- C7 scenario: inode 4 is an empty directory (self and parent links only). -/
def c7EmptyAttrs : InodeAttributes :=
  { inode := 4, open_file_handles := 0, size := 512, kind := FileKind.directory,
    mode := 0o755, hardlinks := 2, uid := 0, gid := 0, extents := [] }

def c7RootDir : Dir :=
  [([46], (1, FileKind.directory)), ([100], (2, FileKind.directory)),
    ([101], (4, FileKind.directory))]

def c7State : FS :=
  { db := fun n =>
      if n = 1 then some rootAttrs
      else if n = 2 then some c7DirAttrs
      else if n = 3 then some c7ChildAttrs
      else if n = 4 then some c7EmptyAttrs
      else none,
    superblock := some 4,
    contents := fun n =>
      if n = 1 then some (Content.dirC c7RootDir)
      else if n = 2 then some (Content.dirC [([46], (2, FileKind.directory)), ([46, 46], (1, FileKind.directory)), ([120], (3, FileKind.file))])
      else if n = 3 then some (Content.fileC [])
      else if n = 4 then some (Content.dirC [([46], (4, FileKind.directory)), ([46, 46], (1, FileKind.directory))])
      else none,
    next_file_handle := 1 }

/-- C8 scenario: a fresh filesystem holding only the root directory. -/
def c8State : FS :=
  { db := fun n => if n = 1 then some rootAttrs else none,
    superblock := none,
    contents := fun n => if n = 1 then some (Content.dirC [([46], (1, FileKind.directory))]) else none,
    next_file_handle := 1 }

/-- C9 scenario: a directory whose descriptor holds four entries in ascending
byte-lexicographic order. -/
def c9Dir : Dir :=
  [([46], (2, FileKind.directory)), ([46, 46], (1, FileKind.directory)),
    ([97], (5, FileKind.file)), ([98], (6, FileKind.file))]

def c9State : FS :=
  { db := fun n => if n = 1 then some rootAttrs else none,
    superblock := some 6,
    contents := fun n => if n = 2 then some (Content.dirC c9Dir) else none,
    next_file_handle := 1 }

/-- Closed form of the readdir loop following the claim wording: the i-th
emitted entry (0-based, after the skip) is tagged with next-offset
offset + i + 1. -/
def tagEntries (offset idx : Nat) : List (Name × (Nat × FileKind)) → List (Nat × Nat × FileKind × Name)
  | [] => []
  | (nm, iv) :: rest => (iv.1, offset + idx + 1, iv.2, nm) :: tagEntries offset (idx + 1) rest

end Sfs

/-- C1: evaluation of BlockCache::write_block at the failing input.  On a
cache hit on a clean entry the buffer is overwritten but the dirty flag is
left false, contradicting the claim that a hit sets dirty (a subsequent
eviction then discards the write, per the Drop impl).  The miss path behaves
as claimed: the content is inserted dirty and no device operation occurs. -/
theorem c1_write_block_hit_keeps_clean_flag :
    (write_block 8 c1HitState 0 [1, 2, 3, 4]).1.cache =
      [(0, { buffer := [1, 2, 3, 4], block_id := 0, dirty := false })] ∧
    (write_block 8 c1MissState 0 [1, 2, 3, 4]).1.cache =
      [(0, { buffer := [1, 2, 3, 4], block_id := 0, dirty := true })] ∧
    (write_block 8 c1MissState 0 [1, 2, 3, 4]).2 = [DevOp.cacheWrite 0] := by
  decide

/-- C2: evaluation of Attrs::write_at at the failing input (BLOCK_SIZE 4,
offset 0, length 6, two blocks).  The tail offset (0 + 6) mod 4 = 2 is
non-aligned and the tail block (index 1) is not the head block, so the claim
requires a read-modify-write of the tail block; the trace shows no cache read
at all (the predicate compares the running index against the half-open end
bound 2, which is never reached), and the tail block is written with the tail
of the staging buffer still zero-filled, destroying the device bytes beyond
the written range. -/
theorem c2_write_at_tail_never_read :
    (write_at 4 8 c2Attrs c2State [1, 2, 3, 4, 5, 6] 0).map
        (fun r => (r.1, r.2.2, r.2.1.cache)) =
      some (6, [DevOp.cacheWrite 0, DevOp.cacheWrite 1],
        [(1, { buffer := [5, 6, 0, 0], block_id := 1, dirty := true }),
          (0, { buffer := [1, 2, 3, 4], block_id := 0, dirty := true })]) ∧
    (0 + 6) % 4 ≠ 0 ∧ (0 + 6 + 3) / 4 - 1 ≠ 0 / 4 := by
  decide

/-- C3: evaluation of write_at followed by read_at at the failing input
(BLOCK_SIZE 4, cache capacity 1, block 0 cached clean).  write_at hits the
clean entry for block 0 without setting dirty; the entry is then evicted
without write-back when block 1 is inserted, so the subsequent read_at of the
same range returns the stale device bytes 9,9,9,9 instead of the written
1,2,3,4 although the write was within the file size and the extents cover the
range. -/
theorem c3_write_then_read_loses_bytes :
    (match write_at 4 1 c3Attrs c3State [1, 2, 3, 4, 5, 6, 7, 8] 0 with
      | some w => (read_at 4 1 c3Attrs w.2.1 8 0).map (fun r => r.1)
      | none => none) = some [9, 9, 9, 9, 5, 6, 7, 8] ∧
    [9, 9, 9, 9, 5, 6, 7, 8] ≠ [1, 2, 3, 4, 5, 6, 7, 8] ∧
    0 + 8 ≤ c3Attrs.size ∧ (logical_blocks c3Attrs.extents).length = 2 := by
  decide

/-- C4: evaluation of Attrs::read_at at the failing input (BLOCK_SIZE 4, file
size 2, offset 3 which is past the end of the file, length 1).  The u64
subtraction size - offset wraps, so the effective length becomes
min(2^64 - 1, 1) = 1 and the call returns one stale byte instead of the
length 0 the claim requires. -/
theorem c4_read_at_past_eof_returns_nonzero :
    (read_at 4 8 c4Attrs c4State 1 3).map (fun r => (r.1, r.2.1)) = some ([7], 1) ∧
    c4Attrs.size ≤ 3 ∧ (1 : Nat) ≠ 0 := by
  decide

theorem alookup_cons_self {β : Type} (k : Nat) (v : β) (c : List (Nat × β)) :
    alookup ((k, v) :: c) k = some v := by
  simp [alookup]

theorem icPut_alookup (st : ICState) (ino : Nat) (i : InodeE)
    (h : alookup st.cache ino = none) :
    alookup (icPut st ino i).1.cache ino = some i := by
  unfold icPut
  rw [h]
  by_cases hc : st.cache.length < st.cap
  · simp [hc, alookup_cons_self]
  · simp only [if_neg hc]
    cases hg : st.cache.getLast? with
    | none => simp [alookup]
    | some last => simp [alookup_cons_self]

/-- C5: an Inode dropped while dirty performs exactly one KV operation --- a
delete of its key when the record's nlink is 0, otherwise a put of its
serialized record; consequently, once nlink is 0 and the entry leaves the
cache (flush_inode shown explicitly; eviction and flush run the same drop
hook), the KV store holds no entry for that inode. -/
theorem c5_dirty_drop_single_kv_op (i : InodeE) (h : i.dirty = true) :
    i.dropOps = (if i.attrs.nlink = 0 then [KVOp.removeK i.attrs.ino]
      else [KVOp.putK i.attrs.ino i.attrs]) ∧
    i.dropOps.length = 1 ∧
    (∀ db : Nat → KVVal, i.attrs.nlink = 0 →
      kvRun db i.dropOps i.attrs.ino = KVVal.absentK) ∧
    (∀ st : ICState, ∀ ino : Nat, alookup st.cache ino = some i →
      (flush_inode st ino).2 = i.dropOps ∧
      (i.attrs.nlink = 0 → (flush_inode st ino).1.db i.attrs.ino = KVVal.absentK)) := by
  have hops : i.dropOps = (if i.attrs.nlink = 0 then [KVOp.removeK i.attrs.ino]
      else [KVOp.putK i.attrs.ino i.attrs]) := by
    unfold InodeE.dropOps InodeE.flushOps
    rw [h]
    by_cases h0 : i.attrs.nlink = 0
    · simp [h0]
    · simp [h0, Nat.pos_of_ne_zero h0]
  have hrun : ∀ db : Nat → KVVal, i.attrs.nlink = 0 →
      kvRun db i.dropOps i.attrs.ino = KVVal.absentK := by
    intro db h0
    rw [hops]
    simp [h0, kvRun, kvApply, fupd]
  refine ⟨hops, ?_, hrun, ?_⟩
  · rw [hops]
    by_cases h0 : i.attrs.nlink = 0 <;> simp [h0]
  · intro st ino hl
    unfold flush_inode
    rw [hl]
    exact ⟨rfl, fun h0 => hrun st.db h0⟩

/-- C5 witness: a concrete dirty inode with nlink 0 is dropped as a single
delete, after which its key is absent from the KV store. -/
theorem c5_witness :
    c5Inode.dropOps = [KVOp.removeK 7] ∧
    kvRun c5Db c5Inode.dropOps 7 = KVVal.absentK := by
  have h := c5_dirty_drop_single_kv_op c5Inode rfl
  constructor
  · rw [h.1]; decide
  · exact h.2.2.1 c5Db rfl

/-- C6: InodeCache::read returns f applied to the cached record on a hit; on
a miss it returns ENOENT when the key is absent from the KV store, EIO when
the stored value fails to deserialize, and otherwise computes f on the stored
record and inserts it into the cache with dirty = false. -/
theorem c6_icRead_cases {V : Type} (st : ICState) (ino : Nat) (f : Attrs → V) :
    (∀ i : InodeE, alookup st.cache ino = some i →
      (icRead st ino f).1 = Except.ok (f i.attrs)) ∧
    (alookup st.cache ino = none → st.db ino = KVVal.absentK →
      icRead st ino f = (Except.error ENOENT, st, [])) ∧
    (alookup st.cache ino = none → st.db ino = KVVal.corruptK →
      icRead st ino f = (Except.error EIO, st, [])) ∧
    (∀ a : Attrs, alookup st.cache ino = none → st.db ino = KVVal.recK a →
      (icRead st ino f).1 = Except.ok (f a) ∧
      alookup (icRead st ino f).2.1.cache ino = some { attrs := a, dirty := false }) := by
  refine ⟨?_, ?_, ?_, ?_⟩
  · intro i hl
    unfold icRead
    rw [hl]
  · intro hl hd
    unfold icRead
    rw [hl, hd]
  · intro hl hd
    unfold icRead
    rw [hl, hd]
  · intro a hl hd
    unfold icRead
    rw [hl, hd]
    exact ⟨rfl, icPut_alookup st ino { attrs := a, dirty := false } hl⟩

/-- C6 witness: the four cases of InodeCache::read evaluated on a concrete
state (inode 3 cached, 4 absent, 5 corrupt, 6 stored valid). -/
theorem c6_witness :
    (icRead c6State 3 Attrs.nlink).1 = Except.ok 2 ∧
    icRead c6State 4 Attrs.nlink = (Except.error ENOENT, c6State, []) ∧
    icRead c6State 5 Attrs.nlink = (Except.error EIO, c6State, []) ∧
    (icRead c6State 6 Attrs.nlink).1 = Except.ok 1 ∧
    alookup (icRead c6State 6 Attrs.nlink).2.1.cache 6 =
      some { attrs := c6StoredAttrs, dirty := false } := by
  have h3 := (c6_icRead_cases c6State 3 Attrs.nlink).1
    { attrs := c6CachedAttrs, dirty := false } (by decide)
  have h4 := (c6_icRead_cases c6State 4 Attrs.nlink).2.1 (by decide) (by decide)
  have h5 := (c6_icRead_cases c6State 5 Attrs.nlink).2.2.1 (by decide) (by decide)
  have h6 := (c6_icRead_cases c6State 6 Attrs.nlink).2.2.2 c6StoredAttrs
    (by decide) (by decide)
  exact ⟨h3, h4, h5, h6.1, h6.2⟩

namespace Sfs

/-- C7 counterexample: in a concrete state the directory at inode 2 (entry
name byte 100 under the root) exists and its descriptor holds three entries,
and rmdir replies ENOTEMPTY instead of succeeding, refuting the claim that
rmdir does not verify emptiness. -/
theorem c7_counterexample_rmdir_rejects_nonempty :
    get_directory_content c7State 2 =
      R.ok [([46], (2, FileKind.directory)), ([46, 46], (1, FileKind.directory)),
        ([120], (3, FileKind.file))] ∧
    (rmdir c7State 0 0 1 [100]).2 = R.err ENOTEMPTY ∧
    R.err ENOTEMPTY ≠ (R.ok () : R Unit) := by
  decide

/-- C7 amended: rmdir does verify emptiness.  Whenever the looked-up target's
directory descriptor holds more than two entries (anything besides the self
and parent links), rmdir replies ENOTEMPTY and leaves the state unchanged;
when the target is empty (at most the two links) and the access, sticky-bit
and open-handle conditions allow it, rmdir proceeds like unlink for the
entry: the parent's entry is removed and the target's KV row is deleted. -/
theorem c7_amended_rmdir_checks_empty :
    (∀ (s : FS) (uid gid parent : Nat) (name : Name)
      (attrs pa : InodeAttributes) (d : Dir),
      lookup_name s parent name = R.ok attrs →
      get_inode s parent = some pa →
      get_directory_content s attrs.inode = R.ok d →
      d.length > 2 →
      rmdir s uid gid parent name = (s, R.err ENOTEMPTY)) ∧
    (∀ (s : FS) (uid gid parent : Nat) (name : Name)
      (attrs pa : InodeAttributes) (d dp : Dir),
      lookup_name s parent name = R.ok attrs →
      get_inode s parent = some pa →
      s.contents attrs.inode = some (Content.dirC d) →
      ¬ d.length > 2 →
      check_access pa.uid pa.gid pa.mode uid gid W_OK = true →
      pa.mode &&& S_ISVTX = 0 →
      attrs.open_file_handles = 0 →
      parent ≠ attrs.inode →
      s.contents parent = some (Content.dirC dp) →
      (rmdir s uid gid parent name).2 = R.ok () ∧
      get_directory_content (rmdir s uid gid parent name).1 parent =
        R.ok (dirRemove dp name) ∧
      (rmdir s uid gid parent name).1.db attrs.inode = none) := by
  constructor
  · intro s uid gid parent name attrs pa d h1 h2 h3 h4
    unfold rmdir
    rw [h1, h2]
    simp [h3, h4]
  · intro s uid gid parent name attrs pa d dp h1 h2 hc hlen hacc hsticky hofh hpne hdp
    unfold rmdir
    rw [h1, h2]
    simp [get_directory_content, hc, hlen, hacc, hsticky, write_inode, gc_inode,
      fupd, hofh, hpne, hdp, write_directory_content, Ne.symm hpne]

/-- C7 witness: the amended theorem applied to the concrete scenarios: rmdir
of the non-empty directory (entry byte 100) replies ENOTEMPTY, rmdir of the
empty directory (entry byte 101) succeeds, removes the parent entry and
deletes the target's KV row. -/
theorem c7_witness :
    rmdir c7State 0 0 1 [100] = (c7State, R.err ENOTEMPTY) ∧
    ((rmdir c7State 0 0 1 [101]).2 = R.ok () ∧
      get_directory_content (rmdir c7State 0 0 1 [101]).1 1 =
        R.ok (dirRemove c7RootDir [101]) ∧
      (rmdir c7State 0 0 1 [101]).1.db 4 = none) := by
  constructor
  · exact c7_amended_rmdir_checks_empty.1 c7State 0 0 1 [100] c7DirAttrs rootAttrs
      [([46], (2, FileKind.directory)), ([46, 46], (1, FileKind.directory)),
        ([120], (3, FileKind.file))]
      (by decide) (by decide) (by decide) (by decide)
  · exact c7_amended_rmdir_checks_empty.2 c7State 0 0 1 [101] c7EmptyAttrs rootAttrs
      [([46], (4, FileKind.directory)), ([46, 46], (1, FileKind.directory))] c7RootDir
      (by decide) (by decide) (by decide) (by decide) (by decide) (by decide)
      (by decide) (by decide) (by decide)

theorem insert_link_spec (s : FS) (uid gid parent : Nat) (name : Name) (ino : Nat)
    (kind : FileKind) (pa : InodeAttributes) (d : Dir)
    (h2 : get_inode s parent = some pa)
    (h3 : check_access pa.uid pa.gid pa.mode uid gid W_OK = true)
    (h4 : s.contents parent = some (Content.dirC d))
    (hname : dirGet d name = none) :
    insert_link s uid gid parent name ino kind =
      (write_directory_content (write_inode s pa) parent (dirInsert d name (ino, kind)),
        R.ok ()) := by
  unfold insert_link lookup_name
  simp [get_directory_content, h4, hname, h2, h3, write_inode]

theorem dirGet_dirInsert (d : Dir) (k : Name) (v : Nat × FileKind) :
    dirGet (dirInsert d k v) k = some v := by
  induction d with
  | nil => simp [dirInsert, dirGet]
  | cons hd t ih =>
    obtain ⟨k0, v0⟩ := hd
    by_cases hlt : bytesLt k k0
    · simp [dirInsert, hlt, dirGet]
    · by_cases heq : k = k0
      · subst heq; simp [dirInsert, hlt, dirGet]
      · simp [dirInsert, hlt, heq, dirGet, Ne.symm heq, ih]

/-- C8 counterexample: on a fresh filesystem, a successful mkdir constructs
the new directory record with hardlinks = 2, not the nlink = 1 the claim
states for every creation operation. -/
theorem c8_counterexample_mkdir_nlink_two :
    (match (mkdir c8State 0 0 1 [100] 493).2 with
      | R.ok a => some a.hardlinks
      | R.err _ => none
      | R.crash => none) = some 2 ∧ (2 : Nat) ≠ 1 := by
  decide

/-- C8 amended: every successful create and symlink constructs the new inode
record with link count 1, while mkdir constructs it with link count 2 (the
directory self link); each operation inserts the parent directory's entry
pointing at the new inode.  (mknod is not implemented by this dispatcher, so
no successful mknod exists.) -/
theorem c8_amended_creation_link_counts :
    (∀ (s : FS) (uid gid parent : Nat) (name : Name) (mode e0 : Nat)
      (pa : InodeAttributes) (d : Dir),
      lookup_name s parent name = R.err e0 →
      get_inode s parent = some pa →
      check_access pa.uid pa.gid pa.mode uid gid W_OK = true →
      s.contents parent = some (Content.dirC d) →
      parent ≠ s.superblock.getD FUSE_ROOT_ID + 1 →
      ∃ a : InodeAttributes, (mkdir s uid gid parent name mode).2 = R.ok a ∧
        a.hardlinks = 2 ∧
        get_directory_content (mkdir s uid gid parent name mode).1 parent =
          R.ok (dirInsert d name (a.inode, FileKind.directory)) ∧
        dirGet (dirInsert d name (a.inode, FileKind.directory)) name =
          some (a.inode, FileKind.directory)) ∧
    (∀ (s : FS) (uid gid parent : Nat) (name : Name) (mode flags e0 : Nat)
      (pa : InodeAttributes) (d : Dir) (knd : FileKind),
      lookup_name s parent name = R.err e0 →
      flags &&& 3 < 3 →
      get_inode s parent = some pa →
      check_access pa.uid pa.gid pa.mode uid gid W_OK = true →
      s.contents parent = some (Content.dirC d) →
      parent ≠ s.superblock.getD FUSE_ROOT_ID + 1 →
      as_file_kind (if uid = 0 then mode else mode - (mode &&& (S_ISUID ||| S_ISGID))) =
        some knd →
      s.next_file_handle < FILE_HANDLE_WRITE_BIT →
      ∃ (a : InodeAttributes) (fh : Nat),
        (create s uid gid parent name mode flags).2 = R.ok (a, fh) ∧
        a.hardlinks = 1 ∧
        get_directory_content (create s uid gid parent name mode flags).1 parent =
          R.ok (dirInsert d name (a.inode, a.kind)) ∧
        dirGet (dirInsert d name (a.inode, a.kind)) name = some (a.inode, a.kind)) ∧
    (∀ (s : FS) (uid gid parent : Nat) (name : Name) (link : Bytes)
      (pa : InodeAttributes) (d : Dir),
      get_inode s parent = some pa →
      pa.inode = parent →
      check_access pa.uid pa.gid pa.mode uid gid W_OK = true →
      s.contents parent = some (Content.dirC d) →
      dirGet d name = none →
      parent ≠ s.superblock.getD FUSE_ROOT_ID + 1 →
      ∃ a : InodeAttributes, (symlink s uid gid parent name link).2 = R.ok a ∧
        a.hardlinks = 1 ∧
        get_directory_content (symlink s uid gid parent name link).1 parent =
          R.ok (dirInsert d name (a.inode, FileKind.symlink)) ∧
        dirGet (dirInsert d name (a.inode, FileKind.symlink)) name =
          some (a.inode, FileKind.symlink)) := by
  refine ⟨?_, ?_, ?_⟩
  · intro s uid gid parent name mode e0 pa d h1 h2 h3 h4 h5
    unfold mkdir
    rw [h1, h2]
    simp only [h3, not_true, Bool.not_eq_true, if_false, ite_false, ite_true]
    simp [write_inode, allocate_next_inode, write_directory_content,
      get_directory_content, fupd, h4, h5, dirGet_dirInsert]
  · intro s uid gid parent name mode flags e0 pa d knd h1 hfl h2 h3 h4 h5 hkind hfh
    unfold create
    rw [h1]
    simp only [Nat.not_lt.mpr, if_neg (Nat.not_le.mpr hfl)]
    rw [h2]
    have hfh2 : s.next_file_handle < FILE_HANDLE_READ_BIT :=
      lt_trans hfh (by norm_num [FILE_HANDLE_WRITE_BIT, FILE_HANDLE_READ_BIT])
    by_cases hdir : knd = FileKind.directory
    · simp [h3, write_inode, allocate_next_inode, write_directory_content,
        get_directory_content, allocate_next_file_handle, fupd, h4, h5, hkind, hdir,
        hfh, hfh2, dirGet_dirInsert]
    · simp [h3, write_inode, allocate_next_inode, write_directory_content,
        get_directory_content, allocate_next_file_handle, fupd, h4, h5, hkind, hdir,
        hfh, hfh2, dirGet_dirInsert]
  · intro s uid gid parent name link pa d h2 hpi h3 h4 hname h5
    have h2b : get_inode (allocate_next_inode (write_inode s pa)).2 parent = some pa := by
      simp [get_inode, allocate_next_inode, write_inode, fupd, hpi]
    have h4b : ((allocate_next_inode (write_inode s pa)).2).contents parent =
        some (Content.dirC d) := by
      simp [allocate_next_inode, write_inode, h4]
    have hins := insert_link_spec (allocate_next_inode (write_inode s pa)).2 uid gid parent
      name (allocate_next_inode (write_inode s pa)).1 FileKind.symlink pa d h2b h3 h4b hname
    simp only [allocate_next_inode, write_inode, write_directory_content, hpi] at hins
    unfold symlink
    rw [h2]
    simp [h3, hins, write_inode, allocate_next_inode, write_directory_content,
      get_directory_content, fupd, h5, hpi, dirGet_dirInsert]

/-- C8 witness: the amended theorem applied to a fresh filesystem for each of
mkdir (entry byte 100), create (byte 102, regular file mode) and symlink
(byte 104). -/
theorem c8_witness :
    (∃ a : InodeAttributes, (mkdir c8State 0 0 1 [100] 493).2 = R.ok a ∧
      a.hardlinks = 2 ∧
      get_directory_content (mkdir c8State 0 0 1 [100] 493).1 1 =
        R.ok (dirInsert [([46], (1, FileKind.directory))] [100] (a.inode, FileKind.directory)) ∧
      dirGet (dirInsert [([46], (1, FileKind.directory))] [100] (a.inode, FileKind.directory))
        [100] = some (a.inode, FileKind.directory)) ∧
    (∃ (a : InodeAttributes) (fh : Nat),
      (create c8State 0 0 1 [102] 33188 0).2 = R.ok (a, fh) ∧
      a.hardlinks = 1 ∧
      get_directory_content (create c8State 0 0 1 [102] 33188 0).1 1 =
        R.ok (dirInsert [([46], (1, FileKind.directory))] [102] (a.inode, a.kind)) ∧
      dirGet (dirInsert [([46], (1, FileKind.directory))] [102] (a.inode, a.kind)) [102] =
        some (a.inode, a.kind)) ∧
    (∃ a : InodeAttributes, (symlink c8State 0 0 1 [104] [47]).2 = R.ok a ∧
      a.hardlinks = 1 ∧
      get_directory_content (symlink c8State 0 0 1 [104] [47]).1 1 =
        R.ok (dirInsert [([46], (1, FileKind.directory))] [104] (a.inode, FileKind.symlink)) ∧
      dirGet (dirInsert [([46], (1, FileKind.directory))] [104] (a.inode, FileKind.symlink))
        [104] = some (a.inode, FileKind.symlink)) := by
  refine ⟨?_, ?_, ?_⟩
  · exact c8_amended_creation_link_counts.1 c8State 0 0 1 [100] 493 ENOENT rootAttrs
      [([46], (1, FileKind.directory))] (by decide) (by decide) (by decide) (by decide)
      (by decide)
  · exact c8_amended_creation_link_counts.2.1 c8State 0 0 1 [102] 33188 0 ENOENT rootAttrs
      [([46], (1, FileKind.directory))] FileKind.file (by decide) (by decide) (by decide)
      (by decide) (by decide) (by decide) (by decide) (by decide)
  · exact c8_amended_creation_link_counts.2.2 c8State 0 0 1 [104] [47] rootAttrs
      [([46], (1, FileKind.directory))] (by decide) (by decide) (by decide) (by decide)
      (by decide) (by decide)

theorem readdirGo_eq (cap offset : Nat) :
    ∀ (l : List (Name × (Nat × FileKind))) (idx : Nat),
    readdirGo cap offset l idx = tagEntries offset idx (l.take (cap - idx)) := by
  intro l
  induction l with
  | nil => intro idx; simp [readdirGo, tagEntries]
  | cons a t ih =>
    intro idx
    obtain ⟨nm, iv⟩ := a
    by_cases h : idx < cap
    · obtain ⟨k, hk⟩ : ∃ k, cap - idx = k + 1 :=
        Nat.exists_eq_succ_of_ne_zero (Nat.sub_ne_zero_of_lt h)

      rw [readdirGo, if_pos h, ih (idx + 1), hk, List.take_succ_cons, tagEntries]
      have : cap - (idx + 1) = k := by omega
      rw [this]
    · have h0 : cap - idx = 0 := Nat.sub_eq_zero_of_le (Nat.not_lt.mp h)
      rw [readdirGo, if_neg h, h0, List.take_zero, tagEntries]

theorem tagEntries_chain (offset : Nat) :
    ∀ (l : List (Name × (Nat × FileKind))) (idx : Nat),
    List.Chain' (fun a b : Name × (Nat × FileKind) => bytesLt a.1 b.1 = true) l →
    List.Chain' (fun x y : Nat × Nat × FileKind × Name => bytesLt x.2.2.2 y.2.2.2 = true)
      (tagEntries offset idx l) := by
  intro l
  induction l with
  | nil => intro idx _; simp [tagEntries]
  | cons a t ih =>
    intro idx h
    cases t with
    | nil =>
      obtain ⟨nm, iv⟩ := a
      simp [tagEntries]
    | cons b t2 =>
      rw [List.chain'_cons] at h
      have htail := ih (idx + 1) h.2
      obtain ⟨nm, iv⟩ := a
      obtain ⟨nm2, iv2⟩ := b
      rw [tagEntries] at htail ⊢
      rw [tagEntries, List.chain'_cons]
      exact ⟨h.1, htail⟩

/-- C9: readdir on a directory descriptor (which the BTreeMap keeps in
ascending byte-lexicographic name order) emits exactly the entries after
skipping the first offset of them, truncated at the reply buffer capacity,
tagging the i-th emitted entry with next-offset offset + i + 1; the emitted
sequence is in ascending byte-lexicographic name order.  readdir is a pure
function of the directory state, so repeated calls on an unchanged directory
return the identical sequence. -/
theorem c9_readdir_sorted_enumeration (s : FS) (ino offset cap : Nat) (d : Dir)
    (hd : s.contents ino = some (Content.dirC d))
    (hs : List.Chain' (fun a b => bytesLt a.1 b.1 = true) d) :
    readdir s ino offset cap = R.ok (tagEntries offset 0 ((d.drop offset).take cap)) ∧
    List.Chain' (fun x y => bytesLt x.2.2.2 y.2.2.2 = true)
      (tagEntries offset 0 ((d.drop offset).take cap)) := by
  constructor
  · unfold readdir
    simp [get_directory_content, hd, readdirGo_eq]
  · exact tagEntries_chain offset ((d.drop offset).take cap) 0 ((hs.drop offset).take cap)

/-- C9 witness: the theorem applied to a concrete four-entry directory at
offset 1 with room for two reply entries. -/
theorem c9_witness :
    readdir c9State 2 1 2 =
      R.ok [(1, 2, FileKind.directory, [46, 46]), (5, 3, FileKind.file, [97])] := by
  have hs : List.Chain' (fun a b => bytesLt a.1 b.1 = true) c9Dir := by
    simp only [c9Dir]
    refine List.chain'_cons.mpr ⟨by decide, List.chain'_cons.mpr ⟨by decide,
      List.chain'_cons.mpr ⟨by decide, List.chain'_singleton _⟩⟩⟩
  have h := (c9_readdir_sorted_enumeration c9State 2 1 2 c9Dir (by decide) hs).1
  exact h.trans (by decide)

/-- C10: release and releasedir always reply ok and leave the filesystem
state (KV store, contents, superblock, handle counter) unchanged: the
open-handle decrement happens on a local copy of the attributes that is never
written back to the store. -/
theorem c10_release_frame (s : FS) (ino : Nat) :
    release s ino = (s, true) ∧ releasedir s ino = (s, true) := by
  unfold release releasedir get_inode
  cases s.db ino <;> exact ⟨rfl, rfl⟩

/-- C10 witness: release and releasedir on a concrete state holding an open
inode leave it untouched and reply ok. -/
theorem c10_witness :
    release c7State 3 = (c7State, true) ∧ releasedir c7State 3 = (c7State, true) :=
  c10_release_frame c7State 3

end Sfs

end CF
